import Mathlib

/-!
Shallow embedding of the Atlas Value–Yield scoring core
(`atlas/scoring/prior.py`, `atlas/scoring/posterior.py`, and the blending
function `_blend_scores` of `atlas/cli/__main__.py`), with theorems checking
the natural-language specification against the code.

Python floats are embedded as exact rationals (`ℚ`); `NaN`-able / optional
values are embedded as `Option ℚ` (`none` = NaN / undefined).
-/

namespace Atlas

/-! ## prior.py -/

/-- Embedding of `clamp_score` from `prior.py`: clamp `score` to the inclusive
`lower`/`upper` bounds (`max(lower, min(upper, score))`). -/
def clamp_score (score : ℚ) (lower : ℚ := 1) (upper : ℚ := 5) : ℚ :=
  let m := if upper ≤ score then upper else score
  if m ≤ lower then lower else m

/-- Embedding of `TypeBaseline` from `prior.py`. -/
structure TypeBaseline where
  value : ℚ
  yield_score : ℚ
deriving DecidableEq

/-- Embedding of `AffluenceCoefficients` from `prior.py`. -/
structure AffluenceCoefficients where
  alpha_income : ℚ
  alpha_high_income : ℚ
  beta_renter : ℚ
deriving DecidableEq

/-- Embedding of `TYPE_BASELINES` from `prior.py`. -/
def TYPE_BASELINES : List (String × TypeBaseline) :=
  [ ("Thrift", ⟨2.8, 3.4⟩)
  , ("Antique", ⟨4.0, 2.0⟩)
  , ("Vintage", ⟨3.8, 2.8⟩)
  , ("Flea/Surplus", ⟨3.0, 3.0⟩)
  , ("Unknown", ⟨3.0, 3.0⟩) ]

/-- Embedding of `AFFLUENCE_COEFFICIENTS` from `prior.py`. -/
def AFFLUENCE_COEFFICIENTS : List (String × AffluenceCoefficients) :=
  [ ("Thrift", ⟨0.5, 0.5, -0.5⟩)
  , ("Antique", ⟨0.1, 0.1, -0.1⟩)
  , ("Vintage", ⟨0.5, 0.3, -1.0⟩)
  , ("Flea/Surplus", ⟨0.2, 0.2, -0.3⟩)
  , ("Unknown", ⟨0.2, 0.2, -0.3⟩) ]

/-- Embedding of `get_type_baseline`: dictionary lookup with fallback to `"Unknown"`. -/
def get_type_baseline (store_type : String) : TypeBaseline :=
  (TYPE_BASELINES.lookup store_type).getD ⟨3.0, 3.0⟩

/-- Embedding of `get_affluence_coefficients`: dictionary lookup with fallback to
`"Unknown"`. -/
def get_affluence_coefficients (store_type : String) : AffluenceCoefficients :=
  (AFFLUENCE_COEFFICIENTS.lookup store_type).getD ⟨0.2, 0.2, -0.3⟩

/-- Embedding of `PriorScoreResult` from `prior.py` (the trace record is omitted; every
numeric field is kept). -/
structure PriorScoreResult where
  value : ℚ
  yield_score : ℚ
  composite : Option ℚ
  baseline_value : ℚ
  baseline_yield : ℚ
  income_contribution : ℚ
  high_income_contribution : ℚ
  renter_contribution : ℚ
  adjacency_value_adjustment : ℚ
  adjacency_yield_adjustment : ℚ
  posterior_value_override : Option ℚ
  posterior_yield_override : Option ℚ
deriving DecidableEq

/-- Embedding of `compute_prior_score` from `prior.py`, translated statement by
statement: baseline + coefficient lookups, the three additive affluence
contributions, the optional adjacency adjustment added before clamping,
the optional composite `λ·Value + (1−λ)·Yield` computed from the pre-clamp
Value/Yield, and the final clamping of all three outputs when `clamp`. -/
def compute_prior_score
    (store_type : String)
    (median_income_norm : ℚ := 0)
    (pct_hh_100k_norm : ℚ := 0)
    (pct_renter_norm : ℚ := 0)
    (lambda_weight : Option ℚ := none)
    (clamp : Bool := true)
    (adjacency_adjustment : Option (ℚ × ℚ) := none)
    (posterior_overrides : Option (Option ℚ × Option ℚ) := none) :
    PriorScoreResult :=
  let baseline := get_type_baseline store_type
  let coeffs := get_affluence_coefficients store_type
  let income_contribution := coeffs.alpha_income * median_income_norm
  let high_income_contribution := coeffs.alpha_high_income * pct_hh_100k_norm
  let renter_contribution := coeffs.beta_renter * pct_renter_norm
  let value0 := baseline.value + income_contribution + high_income_contribution
  let yield0 := baseline.yield_score + renter_contribution
  let adjacency_value_adjustment := (adjacency_adjustment.map Prod.fst).getD 0
  let adjacency_yield_adjustment := (adjacency_adjustment.map Prod.snd).getD 0
  let value1 := value0 + adjacency_value_adjustment
  let yield1 := yield0 + adjacency_yield_adjustment
  let composite0 : Option ℚ :=
    lambda_weight.map (fun l => l * value1 + (1 - l) * yield1)
  let value2 := if clamp then clamp_score value1 else value1
  let yield2 := if clamp then clamp_score yield1 else yield1
  let composite1 := if clamp then composite0.map clamp_score else composite0
  { value := value2
  , yield_score := yield2
  , composite := composite1
  , baseline_value := baseline.value
  , baseline_yield := baseline.yield_score
  , income_contribution := income_contribution
  , high_income_contribution := high_income_contribution
  , renter_contribution := renter_contribution
  , adjacency_value_adjustment := adjacency_value_adjustment
  , adjacency_yield_adjustment := adjacency_yield_adjustment
  , posterior_value_override := (posterior_overrides.map Prod.fst).getD none
  , posterior_yield_override := (posterior_overrides.map Prod.snd).getD none }

/-! ## posterior.py — ECDF lookup -/

/-- The binary search performed by `np.searchsorted(values, theta,
side="right")` inside `_ecdf_lookup`: at each step compare the probe with the
middle element, moving `lo` past the middle when `values[mid] ≤ v` and `hi`
down to the middle otherwise.  Written with a fuel argument (the interval
shrinks at every step, so any fuel ≥ `hi - lo` gives the exact NumPy
result). -/
def ssAux (a : List ℚ) (v : ℚ) : ℕ → ℕ → ℕ → ℕ
  | 0, lo, _hi => lo
  | fuel + 1, lo, hi =>
    if lo < hi then
      if a.getD ((lo + hi) / 2) 0 ≤ v then ssAux a v fuel ((lo + hi) / 2 + 1) hi
      else ssAux a v fuel lo ((lo + hi) / 2)
    else lo

/-- Embedding of `np.searchsorted(a, v, side="right")` over the whole array. -/
def searchsorted_right (a : List ℚ) (v : ℚ) : ℕ :=
  ssAux a v a.length 0 a.length

/-- Embedding of `_ecdf_lookup` from `posterior.py`: `0.5` for an empty reference, else
`searchsorted(values, theta, side="right") / len(values)`. -/
def ecdf_lookup (theta : ℚ) (values : List ℚ) : ℚ :=
  if values.length = 0 then 1 / 2
  else (searchsorted_right values theta : ℚ) / (values.length : ℚ)

/-- One row of the ECDF reference frame: the `Window` and `Theta` columns
(the `Rank`/`Count`/`Quantile` columns are not read by `_ecdf_lookup`). -/
structure EcdfRow where
  window : String
  theta : ℚ
deriving DecidableEq

/-- Embedding of `PosteriorPipeline._quantile_for_theta`: restrict the reference to the
rows of the requested window, falling back to the whole reference when that
subset is empty, then run `_ecdf_lookup` on the `Theta` column. -/
def quantile_for_theta (reference : List EcdfRow) (theta : ℚ) (window : String) : ℚ :=
  let window_ref := reference.filter (fun r => r.window == window)
  let ref := if window_ref.isEmpty then reference else window_ref
  ecdf_lookup theta (ref.map EcdfRow.theta)

/-- The Yield mapping applied in `PosteriorPipeline.predict`
(`clamp_score(1.0 + 4.0 * quantile)`). -/
def posterior_yield (quantile : ℚ) : ℚ :=
  clamp_score (1 + 4 * quantile)

/-- The Value clamp applied in `PosteriorPipeline.predict`
(`np.clip(value_final, 1.0, 5.0)` elementwise). -/
def posterior_value_clip (value : ℚ) : ℚ :=
  let lo := if value ≤ 1 then 1 else value
  if 5 ≤ lo then 5 else lo

/-! ## posterior.py — over-dispersion and family tag -/

/-- The columns of one `StoreSummary` row read by
`_estimate_overdispersion`. -/
structure SummaryRow where
  items_total : ℚ
  exposure : ℚ
  theta_mean : ℚ
deriving DecidableEq

/-- Arithmetic mean of a list (`pandas` mean). -/
def listMean (xs : List ℚ) : ℚ := xs.sum / (xs.length : ℚ)

/-- Embedding of `np.var(xs, ddof=1)`: sum of squared deviations over `n - 1`.  (NumPy
returns NaN for a single element; here division by zero yields `0`, so the
theorems about this definition assume at least two rows.) -/
def sampleVar (xs : List ℚ) : ℚ :=
  (xs.map (fun x => (x - listMean xs) ^ 2)).sum / ((xs.length : ℚ) - 1)

/-- The local `mean_rate` of `_estimate_overdispersion`: the pooled rate
`summary["items_total"].sum() / summary["exposure"].sum()` clipped below at
`1e-6`. -/
def od_mean_rate (summary : List SummaryRow) : ℚ :=
  let rate := (summary.map SummaryRow.items_total).sum /
    (summary.map SummaryRow.exposure).sum
  if rate ≤ 1 / 1000000 then 1 / 1000000 else rate

/-- Embedding of `_estimate_overdispersion` from `posterior.py`: pooled mean rate
`sum(items_total)/sum(exposure)` clipped below at `1e-6`, across-store
sample variance (ddof=1) of `theta_mean`; zero unless the variance exceeds
the mean, else `(var - mean)/mean²` (floored at 0). -/
def estimate_overdispersion (summary : List SummaryRow) : ℚ :=
  if summary.isEmpty then 0
  else
    let mean_rate := od_mean_rate summary
    let var_rate := sampleVar (summary.map SummaryRow.theta_mean)
    if var_rate ≤ mean_rate then 0
    else
      let alpha := (var_rate - mean_rate) / mean_rate ^ 2
      if alpha ≤ 0 then 0 else alpha

/-- The family tag assigned at the end of `_solve_glm`:
`"NegBin" if alpha > 0.0 else "Poisson"`. -/
def glm_family (alpha : ℚ) : String :=
  if 0 < alpha then "NegBin" else "Poisson"

/-! ## posterior.py — method selection -/

/-- The per-store method choice in `PosteriorPipeline.predict`:
`visit_count >= min_samples_glm` → `"GLM"`, `elif visit_count > 0` →
`"Hier"`, `else` → `"kNN"`. -/
def select_method (min_samples_glm : ℚ) (visit_count : ℚ) : String :=
  if min_samples_glm ≤ visit_count then "GLM"
  else if 0 < visit_count then "Hier"
  else "kNN"

/-- Default value of the `min_samples_glm` threshold in
`PosteriorPipeline.__init__`. -/
def default_min_samples_glm : ℚ := 3

/-- Embedding of `self.store_summary_.reindex(stores.index).fillna(0.0)` restricted to the
`visits` column: a store absent from the observation summary gets visit
count 0. -/
def visits_for (summary_visits : List (String × ℚ)) (store_id : String) : ℚ :=
  (summary_visits.lookup store_id).getD 0

/-! ## posterior.py — kNN smoothing of sparse predictions

`_knn_smooth_sparse_predictions` computes Euclidean distances with
`np.sqrt`, which has no exact rational counterpart; the distance metric is
therefore a parameter `dist` here and every theorem below holds for all
`dist` (in particular for the Euclidean one).  `np.argpartition(d, c-1)[:c]`
selects `c` anchors of smallest distance; it is modelled as sorting the
anchor list by distance and taking the first `c` (identical selection up to
tie order).  Each sparse store reads only anchor (pre-smoothing) entries, so
the sequential NumPy writes equal this index-wise map. -/

/-- Embedding of `_knn_smooth_sparse_predictions` from `posterior.py`.  `coords`,
`theta`, `value`, `visits` are the per-store columns (same length); sparse
stores are those with `visits == 0`, anchors those with `visits > 0`.  With
no sparse store or no anchor the inputs are returned unchanged; otherwise
only the sparse indices are rewritten, mixing the store's own estimate with
the inverse-distance-weighted anchor average by `smoothing_factor`. -/
def knn_smooth_sparse_predictions
    (dist : ℚ × ℚ → ℚ × ℚ → ℚ)
    (coords : List (ℚ × ℚ))
    (theta value visits : List ℚ)
    (k : ℕ) (smoothing_factor : ℚ) : List ℚ × List ℚ :=
  let n := coords.length
  let sparse := (List.range n).filter (fun i => visits.getD i 0 = 0)
  let anchors := (List.range n).filter (fun i => 0 < visits.getD i 0)
  if sparse.isEmpty || anchors.isEmpty then (theta, value)
  else
    let adjust : ℕ → ℚ × ℚ := fun i =>
      let ci := coords.getD i (0, 0)
      let pairs := anchors.map (fun j => (dist ci (coords.getD j (0, 0)), j))
      let neighbour_count := if k ≤ pairs.length then k else pairs.length
      let chosen :=
        (pairs.insertionSort (fun p q => p.1 ≤ q.1)).take neighbour_count
      let raw_weights := chosen.map (fun p => 1 / (p.1 + 1 / 1000000))
      let wsum := raw_weights.sum
      let weights := raw_weights.map (fun w => w / wsum)
      let theta_anchor :=
        ((chosen.zip weights).map (fun pw => theta.getD pw.1.2 0 * pw.2)).sum
      let value_anchor :=
        ((chosen.zip weights).map (fun pw => value.getD pw.1.2 0 * pw.2)).sum
      ((1 - smoothing_factor) * theta.getD i 0 + smoothing_factor * theta_anchor,
       (1 - smoothing_factor) * value.getD i 0 + smoothing_factor * value_anchor)
    ((List.range n).map
       (fun i => if visits.getD i 0 = 0 then (adjust i).1 else theta.getD i 0),
     (List.range n).map
       (fun i => if visits.getD i 0 = 0 then (adjust i).2 else value.getD i 0))

/-! ## cli/__main__.py — _blend_scores -/

/-- One merged row of `_blend_scores` after the outer join and column
renames: the five source columns, with `none` standing for NaN (a store
missing from one side of the join). -/
structure BlendInputRow where
  valuePrior : Option ℚ
  yieldPrior : Option ℚ
  compositePrior : Option ℚ
  valuePosterior : Option ℚ
  yieldPosterior : Option ℚ
deriving DecidableEq

/-- One output row of `_blend_scores`. -/
structure BlendedRow where
  omega : Option ℚ
  value : Option ℚ
  yield_score : Option ℚ
  composite : Option ℚ
deriving DecidableEq

/-- The per-field mixing masks of `_blend_scores`: both sources present →
`(1-ω)·prior + ω·posterior`; prior only → prior verbatim; posterior only →
posterior verbatim; neither → NaN. -/
def mix_field (omega : ℚ) : Option ℚ → Option ℚ → Option ℚ
  | some p, some q => some ((1 - omega) * p + omega * q)
  | some p, none => some p
  | none, some q => some q
  | none, none => none

/-- Embedding of `_blend_scores` from `cli/__main__.py`, per merged row: the Omega
assignment from the row-level presence masks, the per-field Value/Yield
mixing, and the Composite rule (`clamp(λ·Value + (1−λ)·Yield)` where both
are available when `lambda_weight` is given, the whole `CompositePrior`
column when it is not). -/
def blend_row (omega : ℚ) (lambda_weight : Option ℚ) (r : BlendInputRow) :
    BlendedRow :=
  let has_prior := r.valuePrior.isSome || r.yieldPrior.isSome
  let has_posterior := r.valuePosterior.isSome || r.yieldPosterior.isSome
  let omegaOut : Option ℚ :=
    if has_prior && has_posterior then some omega
    else if has_prior then some 0
    else if has_posterior then some 1
    else none
  let v := mix_field omega r.valuePrior r.valuePosterior
  let y := mix_field omega r.yieldPrior r.yieldPosterior
  let comp : Option ℚ :=
    match lambda_weight with
    | some l =>
      match v, y with
      | some vv, some yy => some (clamp_score (l * vv + (1 - l) * yy))
      | _, _ => none
    | none => r.compositePrior
  ⟨omegaOut, v, y, comp⟩

/-! ## posterior.py — fit/predict error skeleton -/

/-- The fatal input errors `PosteriorPipeline.fit` can raise:
`ValueError("Observations frame is empty")`, the `KeyError` raised by
`_prepare_features` for a requested feature column missing from the stores
frame, and `ValueError("No overlapping stores between observations and
features")`. -/
inductive FitError where
  | emptyObservations : FitError
  | missingFeatureColumn : String → FitError
  | emptyJoin : FitError
deriving DecidableEq

/-- Outcome of the `_solve_glm` call inside `fit`:
`_GLMConvergenceError` covers both IRLS non-convergence and a singular
weighted design matrix. -/
inductive GlmOutcome where
  | converged : GlmOutcome
  | convergenceError : GlmOutcome
deriving DecidableEq

/-- The error control flow of `PosteriorPipeline.fit`, in source order:
(1) raise on an empty observations frame; (2) `_prepare_features` raises on
the first requested feature column absent from the stores frame;
(3) raise when the inner join of the observation summary (one row per
observed store id) with the store features is empty; (4) the GLM fit —
a `_GLMConvergenceError` is caught and recovered with the ridge-regularized
closed-form fallback (`family="Poisson"`, dispersion 1), never re-raised.
`obs_store_ids` is the `StoreId` column of the observations frame;
only it feeds the checks (the numeric observation columns cannot raise:
dwell and exposure are clipped to at least `1e-6` before `log`). -/
def fit_check (obs_store_ids : List String) (store_ids : List String)
    (store_columns : List String) (feature_columns : List String)
    (glm : GlmOutcome) : Except FitError String :=
  if obs_store_ids.isEmpty then .error .emptyObservations
  else
    match feature_columns.find? (fun c => !store_columns.contains c) with
    | some c => .error (.missingFeatureColumn c)
    | none =>
      let joined := obs_store_ids.dedup.filter (fun sid => store_ids.contains sid)
      if joined.isEmpty then .error .emptyJoin
      else
        match glm with
        | .converged => .ok "solved"
        | .convergenceError => .ok "ridge_fallback"

/-- The guard at the top of `PosteriorPipeline.predict`:
`if self.store_summary_ is None: raise RuntimeError("Pipeline not
fitted")`.  The summary is `none` exactly when `fit` has not completed. -/
def predict_gate (store_summary : Option (List (String × ℚ))) :
    Except String Unit :=
  match store_summary with
  | none => .error "Pipeline not fitted"
  | some _ => .ok ()

/-! ## Helper lemmas -/

/-- The executable clamp agrees with `max lower (min upper score)`. -/
theorem clamp_score_eq_max_min (s lower upper : ℚ) :
    clamp_score s lower upper = max lower (min upper s) := by
  simp only [clamp_score, max_def, min_def]
  split_ifs <;> first | rfl | linarith

/-- The clamp always lands in the inclusive interval `[1, 5]`. -/
theorem clamp_score_mem (s : ℚ) : 1 ≤ clamp_score s ∧ clamp_score s ≤ 5 := by
  rw [clamp_score_eq_max_min]
  constructor
  · exact le_max_left _ _
  · exact max_le (by norm_num) (min_le_left _ _)

/-- The pre-clamp prior Value/Yield, read off the `clamp = false` result. -/
theorem compute_prior_score_noclamp (st : String) (mi ph pr : ℚ)
    (lw : Option ℚ) (adj : Option (ℚ × ℚ))
    (po : Option (Option ℚ × Option ℚ)) :
    (compute_prior_score st mi ph pr lw false adj po).value =
        (get_type_baseline st).value
          + (get_affluence_coefficients st).alpha_income * mi
          + (get_affluence_coefficients st).alpha_high_income * ph
          + ((adj.map Prod.fst).getD 0) ∧
    (compute_prior_score st mi ph pr lw false adj po).yield_score =
        (get_type_baseline st).yield_score
          + (get_affluence_coefficients st).beta_renter * pr
          + ((adj.map Prod.snd).getD 0) := by
  constructor <;> simp [compute_prior_score]

/-- The `clamp = true` prior result is the clamp of the `clamp = false`
one. -/
theorem compute_prior_score_clamp (st : String) (mi ph pr : ℚ)
    (lw : Option ℚ) (adj : Option (ℚ × ℚ))
    (po : Option (Option ℚ × Option ℚ)) :
    (compute_prior_score st mi ph pr lw true adj po).value =
        clamp_score ((compute_prior_score st mi ph pr lw false adj po).value) ∧
    (compute_prior_score st mi ph pr lw true adj po).yield_score =
        clamp_score ((compute_prior_score st mi ph pr lw false adj po).yield_score) := by
  constructor <;> simp [compute_prior_score]

/-! ## Claim theorems -/

/-- C5: the prior scoring formula.  For every store type and affluence
inputs, the pre-clamp scores satisfy
`Value = BaselineValue(type) + α_income·income + α_highIncome·highIncome`
and `Yield = BaselineYield(type) + β_renter·renter`, with the optional
adjacency deltas added before clamping and the published scores equal to
the clamp of those sums; and the `Thrift` scenario with income `0.95`,
highIncome `0.90`, renter `0.20`, λ `0.6` returns Value `3.725`, Yield
`3.30`, Composite `3.555`, contributions `0.475`, `0.45`, `-0.1` over
baseline `2.8`/`3.4`. -/
theorem C5_prior_formula :
    (∀ (st : String) (mi ph pr : ℚ) (lw : Option ℚ) (adj : Option (ℚ × ℚ))
        (po : Option (Option ℚ × Option ℚ)),
      (compute_prior_score st mi ph pr lw false adj po).value =
          (get_type_baseline st).value
            + (get_affluence_coefficients st).alpha_income * mi
            + (get_affluence_coefficients st).alpha_high_income * ph
            + ((adj.map Prod.fst).getD 0) ∧
      (compute_prior_score st mi ph pr lw false adj po).yield_score =
          (get_type_baseline st).yield_score
            + (get_affluence_coefficients st).beta_renter * pr
            + ((adj.map Prod.snd).getD 0) ∧
      (compute_prior_score st mi ph pr lw true adj po).value =
          clamp_score ((compute_prior_score st mi ph pr lw false adj po).value) ∧
      (compute_prior_score st mi ph pr lw true adj po).yield_score =
          clamp_score ((compute_prior_score st mi ph pr lw false adj po).yield_score)) ∧
    ((compute_prior_score "Thrift" 0.95 0.90 0.20 (some 0.6) true none none).value
        = 3.725 ∧
     (compute_prior_score "Thrift" 0.95 0.90 0.20 (some 0.6) true none none).yield_score
        = 3.30 ∧
     (compute_prior_score "Thrift" 0.95 0.90 0.20 (some 0.6) true none none).composite
        = some 3.555 ∧
     (compute_prior_score "Thrift" 0.95 0.90 0.20 (some 0.6) true none none).income_contribution
        = 0.475 ∧
     (compute_prior_score "Thrift" 0.95 0.90 0.20 (some 0.6) true none none).high_income_contribution
        = 0.45 ∧
     (compute_prior_score "Thrift" 0.95 0.90 0.20 (some 0.6) true none none).renter_contribution
        = -0.1 ∧
     (compute_prior_score "Thrift" 0.95 0.90 0.20 (some 0.6) true none none).baseline_value
        = 2.8 ∧
     (compute_prior_score "Thrift" 0.95 0.90 0.20 (some 0.6) true none none).baseline_yield
        = 3.4) := by
  constructor
  · intro st mi ph pr lw adj po
    refine ⟨(compute_prior_score_noclamp st mi ph pr lw adj po).1,
            (compute_prior_score_noclamp st mi ph pr lw adj po).2,
            (compute_prior_score_clamp st mi ph pr lw adj po).1,
            (compute_prior_score_clamp st mi ph pr lw adj po).2⟩
  · have hb : get_type_baseline "Thrift" = ⟨2.8, 3.4⟩ := rfl
    have hc : get_affluence_coefficients "Thrift" = ⟨0.5, 0.5, -0.5⟩ := rfl
    simp only [compute_prior_score, hb, hc]
    norm_num [clamp_score]

/-- C10: in `compute_prior_score` with a λ weight and clamping enabled,
the composite is formed from the pre-clamp Value and Yield and only then
clamped, so for inputs whose raw scores leave `[1, 5]` the returned
composite can differ from `λ·Value + (1−λ)·Yield` over the clamped
outputs: for `Vintage` with income `10`, highIncome `10`, renter `0`,
λ `0.5` the code returns Value `5`, Yield `2.8`, Composite `5`, while the
post-clamp combination would be `3.9`. -/
theorem C10_composite_preclamp :
    (∀ (st : String) (mi ph pr l : ℚ) (adj : Option (ℚ × ℚ))
        (po : Option (Option ℚ × Option ℚ)),
      (compute_prior_score st mi ph pr (some l) true adj po).composite =
        some (clamp_score
          (l * (compute_prior_score st mi ph pr (some l) false adj po).value
            + (1 - l) * (compute_prior_score st mi ph pr (some l) false adj po).yield_score))) ∧
    ((compute_prior_score "Vintage" 10 10 0 (some 0.5) true none none).value = 5 ∧
     (compute_prior_score "Vintage" 10 10 0 (some 0.5) true none none).yield_score = 2.8 ∧
     (compute_prior_score "Vintage" 10 10 0 (some 0.5) true none none).composite = some 5 ∧
     (0.5 : ℚ) * 5 + (1 - 0.5) * 2.8 = 3.9 ∧
     (5 : ℚ) ≠ 3.9) := by
  constructor
  · intro st mi ph pr l adj po
    simp [compute_prior_score]
  · have hb : get_type_baseline "Vintage" = ⟨3.8, 2.8⟩ := rfl
    have hc : get_affluence_coefficients "Vintage" = ⟨0.5, 0.3, -1.0⟩ := rfl
    simp only [compute_prior_score, hb, hc]
    norm_num [clamp_score]

/-- C4: method-selection determinism.  For every threshold `T > 0`
(default 3) and visit count `v`, the method tag is `GLM` when `v ≥ T`,
`Hier` when `0 < v < T`, and `kNN` when `v = 0`; a store absent from the
observation summary gets visit count 0 through
`reindex(stores.index).fillna(0.0)`. -/
theorem C4_method_selection :
    (∀ T v : ℚ, 0 < T →
      (T ≤ v → select_method T v = "GLM") ∧
      (0 < v → v < T → select_method T v = "Hier") ∧
      (v = 0 → select_method T v = "kNN")) ∧
    (∀ (summary_visits : List (String × ℚ)) (store_id : String),
      summary_visits.lookup store_id = none →
        visits_for summary_visits store_id = 0) ∧
    default_min_samples_glm = 3 := by
  refine ⟨?_, ?_, rfl⟩
  · intro T v hT
    refine ⟨?_, ?_, ?_⟩
    · intro h
      unfold select_method
      rw [if_pos h]
    · intro h1 h2
      unfold select_method
      rw [if_neg (by linarith), if_pos h1]
    · intro h
      subst h
      unfold select_method
      rw [if_neg (by linarith), if_neg (by linarith)]
  · intro sv sid h
    simp [visits_for, h]

/-- Witness for C4 at the default threshold 3: visit counts 5, 1, 0 give
`GLM`, `Hier`, `kNN`, and a store id absent from the summary has visit
count 0. -/
theorem C4_method_selection_witness :
    select_method 3 5 = "GLM" ∧ select_method 3 1 = "Hier" ∧
    select_method 3 0 = "kNN" ∧ visits_for [("a", 2)] "b" = 0 :=
  ⟨(C4_method_selection.1 3 5 (by norm_num)).1 (by norm_num),
   (C4_method_selection.1 3 1 (by norm_num)).2.1 (by norm_num) (by norm_num),
   (C4_method_selection.1 3 0 (by norm_num)).2.2 rfl,
   C4_method_selection.2.1 [("a", 2)] "b" rfl⟩

/-- C6: over-dispersion and family selection.  For any summary with at
least two rows (so the ddof = 1 variance is defined), the estimate is 0
exactly when the across-store variance of the mean latent rate does not
exceed the (clipped) corpus mean rate, equals `(var − mean)/mean²`
otherwise, and the family tag of the fitted GLM is `NegBin` exactly when
the estimate is positive, i.e. exactly when the variance exceeds the
mean. -/
theorem C6_overdispersion (summary : List SummaryRow)
    (h2 : 2 ≤ summary.length) :
    (sampleVar (summary.map SummaryRow.theta_mean) ≤ od_mean_rate summary →
        estimate_overdispersion summary = 0) ∧
    (od_mean_rate summary < sampleVar (summary.map SummaryRow.theta_mean) →
        estimate_overdispersion summary =
          (sampleVar (summary.map SummaryRow.theta_mean) - od_mean_rate summary)
            / od_mean_rate summary ^ 2) ∧
    (glm_family (estimate_overdispersion summary) = "NegBin" ↔
        od_mean_rate summary < sampleVar (summary.map SummaryRow.theta_mean)) := by
  have hne : summary.isEmpty = false := by
    cases summary with
    | nil => simp at h2
    | cons a l => rfl
  have hm : 0 < od_mean_rate summary := by
    simp only [od_mean_rate]
    split_ifs with hgt
    · norm_num
    · push_neg at hgt
      linarith
  have hzero : ∀ hv : sampleVar (summary.map SummaryRow.theta_mean) ≤ od_mean_rate summary,
      estimate_overdispersion summary = 0 := by
    intro hv
    unfold estimate_overdispersion
    rw [hne]
    simp only [Bool.false_eq_true, if_false]
    rw [if_pos hv]
  have hformula : ∀ hv : od_mean_rate summary < sampleVar (summary.map SummaryRow.theta_mean),
      estimate_overdispersion summary =
        (sampleVar (summary.map SummaryRow.theta_mean) - od_mean_rate summary)
          / od_mean_rate summary ^ 2 := by
    intro hv
    unfold estimate_overdispersion
    rw [hne]
    simp only [Bool.false_eq_true, if_false]
    rw [if_neg (not_le.mpr hv)]
    have halpha : 0 < (sampleVar (summary.map SummaryRow.theta_mean) - od_mean_rate summary)
        / od_mean_rate summary ^ 2 := by
      apply div_pos (by linarith) (by positivity)
    rw [if_neg (not_le.mpr halpha)]
  refine ⟨hzero, hformula, ?_⟩
  constructor
  · intro hfam
    by_contra hc
    push_neg at hc
    rw [hzero hc] at hfam
    unfold glm_family at hfam
    rw [if_neg (by norm_num)] at hfam
    exact absurd hfam (by decide)
  · intro hv
    rw [hformula hv]
    unfold glm_family
    rw [if_pos (div_pos (by linarith) (by positivity))]

/-- Witness for C6 on a concrete two-store summary: total items 6 over
exposure 2 gives mean rate 3, the theta means 2 and 4 have sample variance
2 ≤ 3, so the estimate is 0 and the family is `Poisson`. -/
theorem C6_overdispersion_witness :
    estimate_overdispersion [⟨2, 1, 2⟩, ⟨4, 1, 4⟩] = 0 ∧
    glm_family (estimate_overdispersion [⟨2, 1, 2⟩, ⟨4, 1, 4⟩]) = "Poisson" := by
  have hv : sampleVar ([⟨2, 1, 2⟩, ⟨4, 1, 4⟩].map SummaryRow.theta_mean) ≤
      od_mean_rate [⟨2, 1, 2⟩, ⟨4, 1, 4⟩] := by
    norm_num [sampleVar, listMean, od_mean_rate]
  have h0 := (C6_overdispersion [⟨2, 1, 2⟩, ⟨4, 1, 4⟩] (by norm_num)).1 hv
  refine ⟨h0, ?_⟩
  rw [h0]
  unfold glm_family
  rw [if_neg (by norm_num)]

/-- Projection of the blended Value column. -/
theorem blend_row_value (ω : ℚ) (lam : Option ℚ) (r : BlendInputRow) :
    (blend_row ω lam r).value = mix_field ω r.valuePrior r.valuePosterior := rfl

/-- Projection of the blended Yield column. -/
theorem blend_row_yield (ω : ℚ) (lam : Option ℚ) (r : BlendInputRow) :
    (blend_row ω lam r).yield_score = mix_field ω r.yieldPrior r.yieldPosterior := rfl

/-- Projection of the blended Composite column when λ is supplied. -/
theorem blend_row_composite_some (ω l : ℚ) (r : BlendInputRow) :
    (blend_row ω (some l) r).composite =
      match mix_field ω r.valuePrior r.valuePosterior,
            mix_field ω r.yieldPrior r.yieldPosterior with
      | some vv, some yy => some (clamp_score (l * vv + (1 - l) * yy))
      | _, _ => none := rfl

/-- Projection of the blended Composite column when λ is absent. -/
theorem blend_row_composite_none (ω : ℚ) (r : BlendInputRow) :
    (blend_row ω none r).composite = r.compositePrior := rfl

/-- C3: blend mixing and Omega.  For Value and Yield independently, both
sources present mixes `(1−ω)·prior + ω·posterior`, a single present source
is used verbatim; Omega is the requested ω when the row has both a prior
and a posterior side, 0 for prior-only rows, 1 for posterior-only rows;
and the scenario ValuePrior 3.2, ValuePosterior 3.5, ω 0.5 blends to
Value 3.35. -/
theorem C3_blend_mixing :
    (∀ (ω : ℚ) (lam : Option ℚ) (r : BlendInputRow),
      (∀ p q, r.valuePrior = some p → r.valuePosterior = some q →
          (blend_row ω lam r).value = some ((1 - ω) * p + ω * q)) ∧
      (∀ p, r.valuePrior = some p → r.valuePosterior = none →
          (blend_row ω lam r).value = some p) ∧
      (∀ q, r.valuePrior = none → r.valuePosterior = some q →
          (blend_row ω lam r).value = some q) ∧
      (∀ p q, r.yieldPrior = some p → r.yieldPosterior = some q →
          (blend_row ω lam r).yield_score = some ((1 - ω) * p + ω * q)) ∧
      (∀ p, r.yieldPrior = some p → r.yieldPosterior = none →
          (blend_row ω lam r).yield_score = some p) ∧
      (∀ q, r.yieldPrior = none → r.yieldPosterior = some q →
          (blend_row ω lam r).yield_score = some q) ∧
      ((r.valuePrior.isSome ∨ r.yieldPrior.isSome) →
       (r.valuePosterior.isSome ∨ r.yieldPosterior.isSome) →
          (blend_row ω lam r).omega = some ω) ∧
      ((r.valuePrior.isSome ∨ r.yieldPrior.isSome) →
       r.valuePosterior = none → r.yieldPosterior = none →
          (blend_row ω lam r).omega = some 0) ∧
      (r.valuePrior = none → r.yieldPrior = none →
       (r.valuePosterior.isSome ∨ r.yieldPosterior.isSome) →
          (blend_row ω lam r).omega = some 1)) ∧
    (blend_row 0.5 none ⟨some 3.2, none, none, some 3.5, none⟩).value
        = some 3.35 := by
  constructor
  · intro ω lam r
    refine ⟨?_, ?_, ?_, ?_, ?_, ?_, ?_, ?_, ?_⟩
    · intro p q hp hq
      rw [blend_row_value, hp, hq]
      rfl
    · intro p hp hq
      rw [blend_row_value, hp, hq]
      rfl
    · intro q hp hq
      rw [blend_row_value, hp, hq]
      rfl
    · intro p q hp hq
      rw [blend_row_yield, hp, hq]
      rfl
    · intro p hp hq
      rw [blend_row_yield, hp, hq]
      rfl
    · intro q hp hq
      rw [blend_row_yield, hp, hq]
      rfl
    · intro hp hq
      rcases hp with hp | hp <;> rcases hq with hq | hq <;>
        simp [blend_row, hp, hq]
    · intro hp hq1 hq2
      rcases hp with hp | hp <;>
        simp [blend_row, hp, hq1, hq2]
    · intro hp1 hp2 hq
      rcases hq with hq | hq <;>
        simp [blend_row, hp1, hp2, hq]
  · rw [blend_row_value]
    norm_num [mix_field]

/-- Witness for C3 at a concrete row with both Value sources present:
ValuePrior 3.2, ValuePosterior 3.5, ω 0.5. -/
theorem C3_blend_mixing_witness :
    (blend_row 0.5 none ⟨some 3.2, none, none, some 3.5, none⟩).value =
      some ((1 - 0.5) * 3.2 + 0.5 * 3.5) :=
  (C3_blend_mixing.1 0.5 none ⟨some 3.2, none, none, some 3.5, none⟩).1
    3.2 3.5 rfl rfl

/-- C1, counterexample to the claim as stated: with a global λ supplied and
a merged row whose final Value and Yield are undefined while the prior
composite `3` is available, `_blend_scores` leaves Composite undefined
instead of falling back to the prior composite. -/
theorem C1_composite_counterexample :
    (blend_row 0.5 (some 0.5) ⟨none, none, some 3, none, none⟩).value = none ∧
    (blend_row 0.5 (some 0.5) ⟨none, none, some 3, none, none⟩).yield_score = none ∧
    (BlendInputRow.mk none none (some 3) none none).compositePrior = some 3 ∧
    (blend_row 0.5 (some 0.5) ⟨none, none, some 3, none, none⟩).composite = none ∧
    (blend_row 0.5 (some 0.5) ⟨none, none, some 3, none, none⟩).composite ≠ some 3 := by
  refine ⟨rfl, rfl, rfl, rfl, ?_⟩
  intro h
  exact Option.noConfusion h

/-- C1, amended: when λ is supplied, Composite is
`clamp(λ·Value + (1−λ)·Yield)` when both final Value and Yield are defined
and undefined otherwise (no fallback); when λ is absent, Composite is the
prior composite verbatim (undefined when that is undefined). -/
theorem C1_composite_rule :
    ∀ (ω : ℚ) (r : BlendInputRow),
      (∀ l vv yy, (blend_row ω (some l) r).value = some vv →
          (blend_row ω (some l) r).yield_score = some yy →
          (blend_row ω (some l) r).composite =
            some (clamp_score (l * vv + (1 - l) * yy))) ∧
      (∀ l, (blend_row ω (some l) r).value = none ∨
            (blend_row ω (some l) r).yield_score = none →
          (blend_row ω (some l) r).composite = none) ∧
      (blend_row ω none r).composite = r.compositePrior := by
  intro ω r
  refine ⟨?_, ?_, blend_row_composite_none ω r⟩
  · intro l vv yy hv hy
    rw [blend_row_value] at hv
    rw [blend_row_yield] at hy
    rw [blend_row_composite_some, hv, hy]
  · intro l h
    rcases h with hv | hy
    · rw [blend_row_value] at hv
      rw [blend_row_composite_some, hv]
    · rw [blend_row_yield] at hy
      rw [blend_row_composite_some, hy]
      rcases mix_field ω r.valuePrior r.valuePosterior with _ | v <;> rfl

/-- Witness for C1's amended rule: λ 0.5 over a row with ValuePrior 2 and
YieldPosterior 4 gives Composite `clamp(0.5·2 + 0.5·4)`. -/
theorem C1_composite_rule_witness :
    (blend_row 0.5 (some 0.5) ⟨some 2, none, none, none, some 4⟩).composite =
      some (clamp_score (0.5 * 2 + (1 - 0.5) * 4)) :=
  (C1_composite_rule 0.5 ⟨some 2, none, none, none, some 4⟩).1
    0.5 2 4 rfl rfl

/-- A convex mix of two in-range optional sources stays in `[1, 5]`. -/
theorem mix_field_mem (ω : ℚ) (h0 : 0 ≤ ω) (h1 : ω ≤ 1) (p q : Option ℚ)
    (hp : ∀ x, p = some x → 1 ≤ x ∧ x ≤ 5)
    (hq : ∀ x, q = some x → 1 ≤ x ∧ x ≤ 5) :
    ∀ x, mix_field ω p q = some x → 1 ≤ x ∧ x ≤ 5 := by
  intro x hx
  rcases p with _ | pv <;> rcases q with _ | qv <;>
    simp [mix_field] at hx
  · obtain rfl := hx
    exact hq qv rfl
  · obtain rfl := hx
    exact hp pv rfl
  · obtain rfl := hx.symm
    obtain ⟨hp1, hp2⟩ := hp pv rfl
    obtain ⟨hq1, hq2⟩ := hq qv rfl
    constructor <;> nlinarith

/-- C2: range invariant for all clamped outputs.  Prior rows with
`clamp=True` have Value and Yield in `[1, 5]`; the posterior pipeline's
published Yield `clamp(1 + 4·q)` and clipped Value are in `[1, 5]` for
every quantile and raw value; and a blended row over in-range sources with
`ω ∈ [0, 1]` keeps any defined Value/Yield in `[1, 5]`. -/
theorem C2_range_invariant :
    (∀ (st : String) (mi ph pr : ℚ) (lw : Option ℚ) (adj : Option (ℚ × ℚ))
        (po : Option (Option ℚ × Option ℚ)),
      1 ≤ (compute_prior_score st mi ph pr lw true adj po).value ∧
      (compute_prior_score st mi ph pr lw true adj po).value ≤ 5 ∧
      1 ≤ (compute_prior_score st mi ph pr lw true adj po).yield_score ∧
      (compute_prior_score st mi ph pr lw true adj po).yield_score ≤ 5) ∧
    (∀ q : ℚ, 1 ≤ posterior_yield q ∧ posterior_yield q ≤ 5) ∧
    (∀ v : ℚ, 1 ≤ posterior_value_clip v ∧ posterior_value_clip v ≤ 5) ∧
    (∀ (ω : ℚ) (lam : Option ℚ) (r : BlendInputRow), 0 ≤ ω → ω ≤ 1 →
      (∀ x, r.valuePrior = some x → 1 ≤ x ∧ x ≤ 5) →
      (∀ x, r.valuePosterior = some x → 1 ≤ x ∧ x ≤ 5) →
      (∀ x, r.yieldPrior = some x → 1 ≤ x ∧ x ≤ 5) →
      (∀ x, r.yieldPosterior = some x → 1 ≤ x ∧ x ≤ 5) →
      (∀ x, (blend_row ω lam r).value = some x → 1 ≤ x ∧ x ≤ 5) ∧
      (∀ x, (blend_row ω lam r).yield_score = some x → 1 ≤ x ∧ x ≤ 5)) := by
  refine ⟨?_, ?_, ?_, ?_⟩
  · intro st mi ph pr lw adj po
    obtain ⟨hv, hy⟩ := compute_prior_score_clamp st mi ph pr lw adj po
    rw [hv, hy]
    obtain ⟨a1, a2⟩ := clamp_score_mem
      ((compute_prior_score st mi ph pr lw false adj po).value)
    obtain ⟨b1, b2⟩ := clamp_score_mem
      ((compute_prior_score st mi ph pr lw false adj po).yield_score)
    exact ⟨a1, a2, b1, b2⟩
  · intro q
    exact clamp_score_mem (1 + 4 * q)
  · intro v
    unfold posterior_value_clip
    dsimp only
    split_ifs <;> constructor <;> linarith
  · intro ω lam r h0 h1 hvp hvq hyp hyq
    constructor
    · rw [blend_row_value]
      exact mix_field_mem ω h0 h1 _ _ hvp hvq
    · rw [blend_row_yield]
      exact mix_field_mem ω h0 h1 _ _ hyp hyq

/-- Witness for C2's blended conjunct: ω 0.5 over a row whose four source
fields are 2, 4, 3, 5 gives a defined Value 3, which lies in `[1, 5]`. -/
theorem C2_range_invariant_witness :
    1 ≤ (3 : ℚ) ∧ (3 : ℚ) ≤ 5 :=
  (C2_range_invariant.2.2.2 0.5 none ⟨some 2, some 3, none, some 4, some 5⟩
      (by norm_num) (by norm_num)
      (by rintro x hx; cases hx; norm_num)
      (by rintro x hx; cases hx; norm_num)
      (by rintro x hx; cases hx; norm_num)
      (by rintro x hx; cases hx; norm_num)).1
    3 (by norm_num [blend_row_value, mix_field])

/-- Reading an index below `n` out of a map over `List.range n`. -/
theorem getD_map_range (n : ℕ) (f : ℕ → ℚ) (i : ℕ) (d : ℚ) (h : i < n) :
    ((List.range n).map f).getD i d = f i := by
  simp [List.getD_eq_getElem?_getD, List.getElem?_map, List.getElem?_range h]

/-- C8: the spatial-smoothing pass is a frame over the visited stores.
For every distance metric, every store with a positive visit count keeps
its pre-smoothing theta and value estimates unchanged; when no visited
store exists the pass returns every estimate unchanged; in particular a
single zero-visit store with `k = 3` requested receives a smoothing
adjustment of exactly 0. -/
theorem C8_knn_frame :
    (∀ (dist : ℚ × ℚ → ℚ × ℚ → ℚ) (coords : List (ℚ × ℚ))
        (theta value visits : List ℚ) (k : ℕ) (sf : ℚ) (i : ℕ),
      i < coords.length → 0 < visits.getD i 0 →
        (knn_smooth_sparse_predictions dist coords theta value visits k sf).1.getD i 0
            = theta.getD i 0 ∧
        (knn_smooth_sparse_predictions dist coords theta value visits k sf).2.getD i 0
            = value.getD i 0) ∧
    (∀ (dist : ℚ × ℚ → ℚ × ℚ → ℚ) (coords : List (ℚ × ℚ))
        (theta value visits : List ℚ) (k : ℕ) (sf : ℚ),
      (∀ j, ¬ 0 < visits.getD j 0) →
        knn_smooth_sparse_predictions dist coords theta value visits k sf
          = (theta, value)) ∧
    (∀ dist : ℚ × ℚ → ℚ × ℚ → ℚ,
      knn_smooth_sparse_predictions dist [(0, 0)] [2] [3] [0] 3 (1 / 2)
        = ([2], [3])) := by
  have hB : ∀ (dist : ℚ × ℚ → ℚ × ℚ → ℚ) (coords : List (ℚ × ℚ))
      (theta value visits : List ℚ) (k : ℕ) (sf : ℚ),
      (∀ j, ¬ 0 < visits.getD j 0) →
        knn_smooth_sparse_predictions dist coords theta value visits k sf
          = (theta, value) := by
    intro dist coords theta value visits k sf h
    simp only [knn_smooth_sparse_predictions]
    have ha : (List.range coords.length).filter
        (fun i => decide (0 < visits.getD i 0)) = [] := by
      rw [List.filter_eq_nil_iff]
      intro a _
      simpa using h a
    rw [ha]
    simp
  refine ⟨?_, hB, ?_⟩
  · intro dist coords theta value visits k sf i hi hv
    simp only [knn_smooth_sparse_predictions]
    split_ifs with h
    · exact ⟨rfl, rfl⟩
    · constructor
      · rw [getD_map_range _ _ _ _ hi, if_neg (by intro h0; rw [h0] at hv; exact absurd hv (by norm_num))]
      · rw [getD_map_range _ _ _ _ hi, if_neg (by intro h0; rw [h0] at hv; exact absurd hv (by norm_num))]
  · intro dist
    apply hB
    intro j
    match j with
    | 0 => norm_num
    | j + 1 => simp [List.getD]

/-- Witness for C8's frame conjunct: a visited store (visit count 1) in a
two-store frame keeps both pre-smoothing estimates. -/
theorem C8_knn_frame_witness :
    (knn_smooth_sparse_predictions (fun _ _ => 0) [(0, 0), (1, 1)]
        [2, 5] [3, 6] [1, 0] 3 (1 / 2)).1.getD 0 0 = ([2, 5] : List ℚ).getD 0 0 ∧
    (knn_smooth_sparse_predictions (fun _ _ => 0) [(0, 0), (1, 1)]
        [2, 5] [3, 6] [1, 0] 3 (1 / 2)).2.getD 0 0 = ([3, 6] : List ℚ).getD 0 0 :=
  C8_knn_frame.1 (fun _ _ => 0) [(0, 0), (1, 1)] [2, 5] [3, 6] [1, 0] 3 (1 / 2) 0
    (by norm_num) (by norm_num [List.getD_cons_zero])

/-- Characterization of when `fit` raises a fatal input error: empty
observations, a requested feature column missing from the stores frame, or
no overlap between observed store ids and the stores frame.  The GLM
outcome plays no role. -/
theorem fit_check_error_iff (obs sids scols fcols : List String)
    (g : GlmOutcome) :
    (∃ e, fit_check obs sids scols fcols g = .error e) ↔
      (obs = [] ∨ (∃ c ∈ fcols, c ∉ scols) ∨ (∀ sid ∈ obs, sid ∉ sids)) := by
  unfold fit_check
  by_cases hobs : obs.isEmpty
  · rw [if_pos hobs]
    simp [List.isEmpty_iff.mp hobs]
  · rw [if_neg hobs]
    have hobs2 : obs ≠ [] := by
      intro h
      subst h
      exact hobs rfl
    cases hf : fcols.find? (fun c => !scols.contains c) with
    | some c =>
      have hc_mem : c ∈ fcols := List.mem_of_find?_eq_some hf
      have hc_p := List.find?_some hf
      have hc_not : c ∉ scols := by
        simpa using hc_p
      simp only
      constructor
      · intro _
        exact Or.inr (Or.inl ⟨c, hc_mem, hc_not⟩)
      · intro _
        exact ⟨.missingFeatureColumn c, rfl⟩
    | none =>
      have hnone : ∀ c ∈ fcols, c ∈ scols := by
        intro c hc
        have := List.find?_eq_none.mp hf c hc
        simpa using this
      simp only
      by_cases hj : (obs.dedup.filter fun sid => sids.contains sid) = []
      · rw [if_pos (by simpa [List.isEmpty_iff] using hj)]
        constructor
        · intro _
          refine Or.inr (Or.inr ?_)
          intro sid hsid
          have hd : sid ∈ obs.dedup := List.mem_dedup.mpr hsid
          have h2 := (List.filter_eq_nil_iff.mp hj) sid hd
          simpa using h2
        · intro _
          exact ⟨.emptyJoin, rfl⟩
      · rw [if_neg (by simpa [List.isEmpty_iff] using hj)]
        constructor
        · rintro ⟨e, he⟩
          cases g <;> simp at he
        · intro h
          rcases h with h | h | h
          · exact absurd h hobs2
          · obtain ⟨c, hc1, hc2⟩ := h
            exact absurd (hnone c hc1) hc2
          · exfalso
            apply hj
            rw [List.filter_eq_nil_iff]
            intro sid hsid
            have hmem : sid ∈ obs := List.mem_dedup.mp hsid
            simpa using h sid hmem

/-- C9, counterexample to the claim as stated: with a nonempty
observations table and a nonempty observation/store overlap, requesting
the feature column `"Y"` absent from a stores frame whose only column is
`"X"` still raises a fatal input error (the `KeyError` of
`_prepare_features`), so "fit raises a fatal input error exactly when the
observations table or the join is empty" is too narrow. -/
theorem C9_error_counterexample :
    fit_check ["A"] ["A"] ["X"] ["Y"] .converged
        = .error (.missingFeatureColumn "Y") ∧
    (["A"] : List String) ≠ [] ∧
    (∃ sid ∈ (["A"] : List String), sid ∈ (["A"] : List String)) :=
  ⟨rfl, by simp, ⟨"A", by simp, by simp⟩⟩

/-- C9, amended: `fit` raises a fatal input error exactly when the
observations table is empty, a requested feature column is missing from
the stores frame, or the join of the observation summary with the store
features is empty; which error (if any) is raised is independent of the
GLM outcome, a non-converging GLM is recovered via the ridge fallback and
never surfaced, and `predict` before `fit` raises. -/
theorem C9_error_taxonomy :
    ∀ (obs sids scols fcols : List String) (g g2 : GlmOutcome),
      ((∃ e, fit_check obs sids scols fcols g = .error e) ↔
        (obs = [] ∨ (∃ c ∈ fcols, c ∉ scols) ∨ (∀ sid ∈ obs, sid ∉ sids))) ∧
      ((∃ e, fit_check obs sids scols fcols g = .error e) ↔
        (∃ e, fit_check obs sids scols fcols g2 = .error e)) ∧
      (obs ≠ [] → (∀ c ∈ fcols, c ∈ scols) → (∃ sid ∈ obs, sid ∈ sids) →
        fit_check obs sids scols fcols .convergenceError = .ok "ridge_fallback") ∧
      (predict_gate none = .error "Pipeline not fitted") ∧
      (∀ s, predict_gate (some s) = .ok ()) := by
  intro obs sids scols fcols g g2
  refine ⟨fit_check_error_iff obs sids scols fcols g,
    (fit_check_error_iff obs sids scols fcols g).trans
      (fit_check_error_iff obs sids scols fcols g2).symm,
    ?_, rfl, fun s => rfl⟩
  intro hobs hcols hjoin
  unfold fit_check
  rw [if_neg (by simpa [List.isEmpty_iff] using hobs)]
  have hf : fcols.find? (fun c => !scols.contains c) = none := by
    rw [List.find?_eq_none]
    intro c hc
    simpa using hcols c hc
  rw [hf]
  simp only
  obtain ⟨sid, hs1, hs2⟩ := hjoin
  rw [if_neg]
  intro hempty
  have hj := List.isEmpty_iff.mp hempty
  have hd : sid ∈ obs.dedup := List.mem_dedup.mpr hs1
  have := (List.filter_eq_nil_iff.mp hj) sid hd
  simp at this
  exact this hs2

/-- Witness for C9's amended taxonomy: a valid single-store input with a
non-converging GLM is recovered via the ridge fallback. -/
theorem C9_error_taxonomy_witness :
    fit_check ["A"] ["A"] ["X"] ["X"] .convergenceError = .ok "ridge_fallback" :=
  (C9_error_taxonomy ["A"] ["A"] ["X"] ["X"] .converged .converged).2.2.1
    (by simp) (by simp) ⟨"A", by simp, by simp⟩

/-- The binary-search result stays inside the initial interval. -/
theorem ssAux_bounds (a : List ℚ) (v : ℚ) :
    ∀ (fuel lo hi : ℕ), lo ≤ hi →
      lo ≤ ssAux a v fuel lo hi ∧ ssAux a v fuel lo hi ≤ hi := by
  intro fuel
  induction fuel with
  | zero =>
    intro lo hi h
    exact ⟨le_refl lo, h⟩
  | succ n ih =>
    intro lo hi h
    simp only [ssAux]
    split_ifs with hlt hle
    · obtain ⟨b1, b2⟩ := ih ((lo + hi) / 2 + 1) hi (by omega)
      exact ⟨le_trans (by omega) b1, b2⟩
    · obtain ⟨b1, b2⟩ := ih lo ((lo + hi) / 2) (by omega)
      exact ⟨b1, le_trans b2 (by omega)⟩
    · exact ⟨le_refl lo, h⟩

/-- The binary-search insertion index is monotone in the probe, even for
an unsorted array (as in the multi-window fallback). -/
theorem ssAux_mono (a : List ℚ) (v1 v2 : ℚ) (hv : v1 ≤ v2) :
    ∀ (fuel lo hi : ℕ), lo ≤ hi →
      ssAux a v1 fuel lo hi ≤ ssAux a v2 fuel lo hi := by
  intro fuel
  induction fuel with
  | zero =>
    intro lo hi _
    exact le_refl lo
  | succ n ih =>
    intro lo hi h
    simp only [ssAux]
    split_ifs with hlt h1 h2 h2
    · exact ih ((lo + hi) / 2 + 1) hi (by omega)
    · exact absurd (le_trans h1 hv) h2
    · calc ssAux a v1 n lo ((lo + hi) / 2)
          ≤ (lo + hi) / 2 := (ssAux_bounds a v1 n lo ((lo + hi) / 2) (by omega)).2
        _ ≤ ssAux a v2 n ((lo + hi) / 2 + 1) hi := by
            have := (ssAux_bounds a v2 n ((lo + hi) / 2 + 1) hi (by omega)).1
            omega
    · exact ih lo ((lo + hi) / 2) (by omega)
    · exact le_refl lo

/-- On a sorted interval the binary search separates the array into a
prefix of elements `≤ v` and a suffix of elements `> v`. -/
theorem ssAux_sorted_char (a : List ℚ) (v : ℚ)
    (hsort : ∀ i j, i ≤ j → j < a.length → a.getD i 0 ≤ a.getD j 0) :
    ∀ (fuel lo hi : ℕ), lo ≤ hi → hi ≤ a.length → hi - lo ≤ fuel →
      (∀ j, j < lo → a.getD j 0 ≤ v) →
      (∀ j, hi ≤ j → j < a.length → v < a.getD j 0) →
      (∀ j, j < ssAux a v fuel lo hi → a.getD j 0 ≤ v) ∧
      (∀ j, ssAux a v fuel lo hi ≤ j → j < a.length → v < a.getD j 0) := by
  intro fuel
  induction fuel with
  | zero =>
    intro lo hi h1 h2 h3 hpre hsuf
    have hx : lo = hi := by omega
    subst hx
    exact ⟨hpre, hsuf⟩
  | succ n ih =>
    intro lo hi h1 h2 h3 hpre hsuf
    simp only [ssAux]
    split_ifs with hlt hle
    · refine ih ((lo + hi) / 2 + 1) hi (by omega) h2 (by omega) ?_ hsuf
      intro j hj
      exact le_trans (hsort j ((lo + hi) / 2) (by omega) (by omega)) hle
    · refine ih lo ((lo + hi) / 2) (by omega) (by omega) (by omega) hpre ?_
      intro j hj1 hj2
      exact lt_of_lt_of_le (not_le.mp hle) (hsort ((lo + hi) / 2) j hj1 hj2)
    · have hx : lo = hi := by omega
      subst hx
      exact ⟨hpre, hsuf⟩

/-- Counting lemma: a list whose first `r` entries satisfy `· ≤ v` and
whose remaining entries do not has exactly `r` entries `≤ v`. -/
theorem countP_eq_of_split (v : ℚ) :
    ∀ (a : List ℚ) (r : ℕ), r ≤ a.length →
      (∀ j, j < r → a.getD j 0 ≤ v) →
      (∀ j, r ≤ j → j < a.length → ¬ a.getD j 0 ≤ v) →
      a.countP (fun x => decide (x ≤ v)) = r := by
  intro a
  induction a with
  | nil =>
    intro r hr _ _
    simp only [List.length_nil, Nat.le_zero] at hr
    subst hr
    simp
  | cons x xs ih =>
    intro r hr h1 h2
    cases r with
    | zero =>
      have hx : ¬ x ≤ v := by
        have := h2 0 (le_refl 0) (by simp)
        simpa using this
      rw [List.countP_cons_of_neg _ _ (by simpa using hx)]
      refine ih 0 (Nat.zero_le _) (by omega) ?_
      intro j _ hj
      have := h2 (j + 1) (Nat.zero_le _) (by simpa using hj)
      simpa using this
    | succ k =>
      have hx : x ≤ v := by
        have := h1 0 (Nat.succ_pos k)
        simpa using this
      rw [List.countP_cons_of_pos _ _ (by simpa using hx)]
      have hk : xs.countP (fun x => decide (x ≤ v)) = k := by
        refine ih k (by simpa using hr) ?_ ?_
        · intro j hj
          have := h1 (j + 1) (by omega)
          simpa using this
        · intro j hj1 hj2
          have := h2 (j + 1) (by omega) (by simpa using hj2)
          simpa using this
      omega

/-- On a sorted array, `np.searchsorted(a, v, side="right")` equals the
number of entries `≤ v` — the `rank(value ≤ x)` of the spec. -/
theorem searchsorted_right_eq_countP (a : List ℚ) (v : ℚ)
    (hsort : ∀ i j, i ≤ j → j < a.length → a.getD i 0 ≤ a.getD j 0) :
    searchsorted_right a v = a.countP (fun x => decide (x ≤ v)) := by
  have hb := ssAux_bounds a v a.length 0 a.length (Nat.zero_le _)
  have hc := ssAux_sorted_char a v hsort a.length 0 a.length (Nat.zero_le _)
    (le_refl _) (by omega) (by intro j hj; omega) (by intro j hj1 hj2; omega)
  exact (countP_eq_of_split v a _ hb.2 hc.1
    (fun j hj1 hj2 => not_le.mpr (hc.2 j hj1 hj2))).symm

/-- A sorted list has monotone `getD` reads inside its bounds. -/
theorem sorted_getD_mono (a : List ℚ) (h : List.Sorted (· ≤ ·) a) :
    ∀ i j, i ≤ j → j < a.length → a.getD i 0 ≤ a.getD j 0 := by
  intro i j hij hj
  rcases eq_or_lt_of_le hij with rfl | hlt
  · exact le_refl _
  · have hi : i < a.length := lt_trans hlt hj
    have hrel := List.Sorted.rel_get_of_lt h
      (a := ⟨i, hi⟩) (b := ⟨j, hj⟩) hlt
    rw [List.getD_eq_getElem?_getD, List.getD_eq_getElem?_getD,
      List.getElem?_eq_getElem hi, List.getElem?_eq_getElem hj]
    simpa [List.get_eq_getElem] using hrel

/-- The ECDF lookup always lands in `[0, 1]`. -/
theorem ecdf_lookup_bounds (θ : ℚ) (vals : List ℚ) :
    0 ≤ ecdf_lookup θ vals ∧ ecdf_lookup θ vals ≤ 1 := by
  unfold ecdf_lookup
  split_ifs with h
  · norm_num
  · have hlen : 0 < vals.length := Nat.pos_of_ne_zero h
    have hs := (ssAux_bounds vals θ vals.length 0 vals.length (Nat.zero_le _)).2
    unfold searchsorted_right
    constructor
    · exact div_nonneg (Nat.cast_nonneg _) (Nat.cast_nonneg _)
    · rw [div_le_one (by exact_mod_cast hlen)]
      exact_mod_cast hs

/-- The ECDF lookup is monotone non-decreasing in the probe. -/
theorem ecdf_lookup_mono (θ1 θ2 : ℚ) (h : θ1 ≤ θ2) (vals : List ℚ) :
    ecdf_lookup θ1 vals ≤ ecdf_lookup θ2 vals := by
  unfold ecdf_lookup
  split_ifs with hl
  · exact le_refl _
  · have hmono := ssAux_mono vals θ1 θ2 h vals.length 0 vals.length (Nat.zero_le _)
    have hn : (0 : ℚ) < (vals.length : ℚ) := by
      exact_mod_cast Nat.pos_of_ne_zero hl
    unfold searchsorted_right
    rw [div_le_div_iff_of_pos_right hn]
    exact_mod_cast hmono

/-- C7, amended: the quantile returned by `_quantile_for_theta` always lies
in `[0, 1]` and is monotone non-decreasing in theta for a fixed reference
and window; whenever the window subset is non-empty (its `Theta` column is
then sorted by construction of the reference) the quantile equals
`rank(value ≤ theta) / count` over that window; and Yield is
`clamp(1 + 4·quantile)`.  (In the fallback to the full multi-window
reference the binary search runs over a column that need not be globally
sorted, where the rank/count reading can fail — see the counterexample.) -/
theorem C7_ecdf_calibration :
    (∀ (reference : List EcdfRow) (θ : ℚ) (w : String),
      0 ≤ quantile_for_theta reference θ w ∧
      quantile_for_theta reference θ w ≤ 1) ∧
    (∀ (reference : List EcdfRow) (θ1 θ2 : ℚ) (w : String), θ1 ≤ θ2 →
      quantile_for_theta reference θ1 w ≤ quantile_for_theta reference θ2 w) ∧
    (∀ (reference : List EcdfRow) (θ : ℚ) (w : String),
      reference.filter (fun r => r.window == w) ≠ [] →
      List.Sorted (· ≤ ·)
        ((reference.filter (fun r => r.window == w)).map EcdfRow.theta) →
      quantile_for_theta reference θ w =
        (((reference.filter (fun r => r.window == w)).map EcdfRow.theta).countP
            (fun x => decide (x ≤ θ)) : ℚ) /
          ((reference.filter (fun r => r.window == w)).length : ℚ)) ∧
    (∀ q : ℚ, posterior_yield q = clamp_score (1 + 4 * q)) := by
  refine ⟨?_, ?_, ?_, fun q => rfl⟩
  · intro reference θ w
    simp only [quantile_for_theta]
    exact ecdf_lookup_bounds θ _
  · intro reference θ1 θ2 w h
    simp only [quantile_for_theta]
    exact ecdf_lookup_mono θ1 θ2 h _
  · intro reference θ w hne hsort
    simp only [quantile_for_theta]
    have hempty : (reference.filter (fun r => r.window == w)).isEmpty = false := by
      simp [List.isEmpty_iff, hne]
    rw [if_neg (by simp [hempty])]
    unfold ecdf_lookup
    have hlen : ((reference.filter (fun r => r.window == w)).map EcdfRow.theta).length ≠ 0 := by
      rw [List.length_map]
      intro h0
      exact hne (List.length_eq_zero.mp h0)
    rw [if_neg hlen]
    rw [searchsorted_right_eq_countP _ θ (sorted_getD_mono _ hsort)]
    rw [List.length_map]

/-- Witness for C7 on a concrete single-window reference with thetas 1 and
2: the quantile at theta 0 is at most the quantile at theta 1.5, and the
rank/count reading holds for the sorted window. -/
theorem C7_ecdf_calibration_witness :
    quantile_for_theta [⟨"corpus", 1⟩, ⟨"corpus", 2⟩] 0 "corpus" ≤
      quantile_for_theta [⟨"corpus", 1⟩, ⟨"corpus", 2⟩] (3 / 2) "corpus" :=
  C7_ecdf_calibration.2.1 [⟨"corpus", 1⟩, ⟨"corpus", 2⟩] 0 (3 / 2) "corpus"
    (by norm_num)

/-- C7, counterexample to the claim as stated: with the reference sorted by
(Window, Theta) holding windows `A = [10]` and `B = [1, 2]`, a lookup for
theta 5 under the absent window `C` falls back to the full reference whose
`Theta` column `[10, 1, 2]` is not sorted; the binary search returns
quantile 1, while `rank(value ≤ 5)/count = 2/3`. -/
theorem C7_fallback_counterexample :
    quantile_for_theta [⟨"A", 10⟩, ⟨"B", 1⟩, ⟨"B", 2⟩] 5 "C" = 1 ∧
    ((([⟨"A", 10⟩, ⟨"B", 1⟩, ⟨"B", 2⟩] : List EcdfRow).map EcdfRow.theta).countP
        (fun x => decide (x ≤ 5)) : ℚ) / 3 = 2 / 3 ∧
    (1 : ℚ) ≠ 2 / 3 := by
  refine ⟨?_, ?_, by norm_num⟩
  · have hfil : ([⟨"A", 10⟩, ⟨"B", 1⟩, ⟨"B", 2⟩] : List EcdfRow).filter
        (fun r => r.window == "C") = [] := rfl
    simp only [quantile_for_theta, hfil]
    norm_num [ecdf_lookup, searchsorted_right, ssAux, List.getD]
  · norm_num [List.countP, List.countP.go]

end Atlas
